import Mathlib

/-!
Verification of the TimeShiftAI wealth-projection kernel.

The repository contains three near-duplicate pages.  The definitions below are
shallow embeddings of their numeric cores, with the stream of standard-normal
draws injected as a function `noise : ℕ → ℚ` (a draw from `N(μ, σ)` is modelled
as `μ + σ * noise i`, which is exact for `σ = 0` and faithful to how numpy
derives a general normal sample from a standard one).

* `simLoop` / `wealthTraj` : the inlined scenario loop of `app/app.py`
  (lines 110-123): `inc = incomes[-1] * (1 + normal(growth, vol))`,
  `net = wealth[-1] + inc - yearly_expense`, starting from
  `incomes = [salary*12]`, `wealth = [savings]`.
* `incomeSeq` / `wealthSeq` : the same recurrence as functions of the period
  index, used to state closed forms.
* `salarySeq` / `simulate_path` : `utils/simulation_core.py` — starts from
  `[base_salary]`, appends `years - 1` elements via
  `salary[-1] * (1 + (growth_rate + normal(0, volatility)) * risk_tolerance)`,
  with a default seed of 42 (`simulate_pathNoSeed`).
* `future_income` / `net_savings` : `app/app3.py` lines 30-31.
* `normalE` / `projectE` : the `app.py` loop again, but with the numpy
  behaviour on a negative scale made explicit (`np.random.normal` raises
  `ValueError` when its scale argument is negative); every other input
  produces a plain result.
* `conversion_rate` / `displayWealth` : the currency fallback of `app.py`
  lines 86-100 and the single multiplication of line 127.
* `idxmax` / `idxmin` / `bestAt` / `worstAt` : the snapshot selection of
  `app.py` lines 141-149, where pandas `idxmax`/`idxmin` return the first
  row attaining the extremum.
-/

/-- One scenario loop body of `app/app.py` (lines 114-120), unrolled `n` times
starting at draw index `t` with current income `inc` and current wealth `w`;
returns the list of wealth values appended by the loop. -/
def simLoop (g v o : ℚ) (noise : ℕ → ℚ) : ℕ → ℕ → ℚ → ℚ → List ℚ
  | 0, _, _, _ => []
  | n + 1, t, inc, w =>
      (w + inc * (1 + (g + v * noise t)) - o) ::
        simLoop g v o noise n (t + 1) (inc * (1 + (g + v * noise t)))
          (w + inc * (1 + (g + v * noise t)) - o)

/-- The full wealth list built by the `app.py` scenario loop: `[savings]`
followed by `years` appended values. -/
def wealthTraj (s i0 g v o : ℚ) (years : ℕ) (noise : ℕ → ℚ) : List ℚ :=
  s :: simLoop g v o noise years 0 i0 s

/-- Income at period `t` of the `app.py` recurrence:
`income_0 = i0`, `income_(t+1) = income_t * (1 + (g + v * z_t))`. -/
def incomeSeq (i0 g v : ℚ) (noise : ℕ → ℚ) : ℕ → ℚ
  | 0 => i0
  | t + 1 => incomeSeq i0 g v noise t * (1 + (g + v * noise t))

/-- Wealth at period `t` of the `app.py` recurrence:
`wealth_0 = s`, `wealth_(t+1) = wealth_t + income_(t+1) - o`. -/
def wealthSeq (s i0 g v o : ℚ) (noise : ℕ → ℚ) : ℕ → ℚ
  | 0 => s
  | t + 1 => wealthSeq s i0 g v o noise t + incomeSeq i0 g v noise (t + 1) - o

/-- Salary at step `n` of `utils/simulation_core.py`:
`salary_0 = base`, `salary_(n+1) = salary_n * (1 + (g + v * z_n) * risk)`. -/
def salarySeq (base g v risk : ℚ) (noise : ℕ → ℚ) : ℕ → ℚ
  | 0 => base
  | n + 1 => salarySeq base g v risk noise n * (1 + (g + v * noise n) * risk)

/-- The list returned by `simulate_path`: it starts from `[base_salary]` and
appends `years - 1` further elements, so it has `years - 1 + 1` entries
(Python `range(years - 1)` is empty for `years = 0`, matching truncated
subtraction on `ℕ`). -/
def simulate_path (base g v risk : ℚ) (years : ℕ) (noise : ℕ → ℚ) : List ℚ :=
  (List.range (years - 1 + 1)).map (salarySeq base g v risk noise)

/-- The default value of the `seed` parameter of `simulate_path`. -/
def defaultSeed : ℕ := 42

/-- A call of `simulate_path` that omits the `seed` argument: the generator is
freshly constructed from the default seed 42, so the draw stream is
`stream defaultSeed` where `stream` maps each seed to the stream the
generator algorithm produces from it. -/
def simulate_pathNoSeed (stream : ℕ → ℕ → ℚ) (base g v risk : ℚ) (years : ℕ) :
    List ℚ :=
  simulate_path base g v risk years (stream defaultSeed)

/-- A concrete stand-in for a seed-indexed family of draw streams, used to
evaluate the default-seed behaviour on explicit inputs. -/
def mStream : ℕ → ℕ → ℚ := fun s i => ((s + i : ℕ) : ℚ)

/-- The all-zero draw stream (every standard-normal sample equals 0). -/
def z0 : ℕ → ℚ := fun _ => 0

/-- The all-one draw stream. -/
def z1 : ℕ → ℚ := fun _ => 1

/-- Line 30 of `app/app3.py`:
`future_income = [salary * ((1 + growth) ** i) for i in range(years + 1)]`. -/
def future_income (salary growth : ℚ) (years : ℕ) : List ℚ :=
  (List.range (years + 1)).map (fun i => salary * (1 + growth) ^ i)

/-- Line 31 of `app/app3.py`:
`net_savings = [savings + (income - family_expense*12 - emi*12) for income in future_income]`. -/
def net_savings (salary growth family_expense emi savings : ℚ) (years : ℕ) :
    List ℚ :=
  (future_income salary growth years).map
    (fun income => savings + (income - family_expense * 12 - emi * 12))

/-- The message numpy raises when a normal draw is requested with a negative
scale. -/
def scaleErrMsg : String := "ValueError: scale less than 0"

/-- A draw from `np.random.normal(mean, sd)`: raises when `sd < 0`, otherwise
returns `mean + sd * z` for the underlying standard-normal sample `z`. -/
def normalE (mean sd z : ℚ) : Except String ℚ :=
  if sd < 0 then Except.error scaleErrMsg else Except.ok (mean + sd * z)

/-- The `app.py` scenario loop with the failure behaviour of the numpy draw
threaded through explicitly (the source performs no validation of its own). -/
def projectEGo (g v o : ℚ) (noise : ℕ → ℚ) :
    ℕ → ℕ → ℚ → ℚ → Except String (List ℚ)
  | 0, _, _, _ => Except.ok []
  | n + 1, t, inc, w =>
      match normalE g v (noise t) with
      | Except.error e => Except.error e
      | Except.ok gdraw =>
          match projectEGo g v o noise n (t + 1) (inc * (1 + gdraw))
              (w + inc * (1 + gdraw) - o) with
          | Except.error e => Except.error e
          | Except.ok rest => Except.ok ((w + inc * (1 + gdraw) - o) :: rest)

/-- The full `app.py` projection with explicit failure behaviour: the wealth
list starts at `[savings]` and each loop iteration may only fail inside the
numpy draw itself. -/
def projectE (s i0 g v o : ℚ) (years : ℕ) (noise : ℕ → ℚ) :
    Except String (List ℚ) :=
  match projectEGo g v o noise years 0 i0 s with
  | Except.error e => Except.error e
  | Except.ok l => Except.ok (s :: l)

/-- Outcome of the currency-rate HTTP call in `app.py` lines 90-100: either the
request raised, or it returned a status code together with the (possibly
empty) rates mapping of the JSON body. -/
inductive FetchResult where
  | failed : FetchResult
  | response : ℕ → List (String × ℚ) → FetchResult

/-- The conversion rate computed by `app.py` lines 86-100: `1.0` when the
currency equals the base currency, the request failed, the status is not 200,
or the currency is missing from the rates mapping; otherwise the fetched
rate. -/
def conversion_rate (currency base_currency : String) (r : FetchResult) : ℚ :=
  if currency = base_currency then 1
  else
    match r with
    | FetchResult.failed => 1
    | FetchResult.response status rates =>
        if status = 200 then (rates.lookup currency).getD 1 else 1

/-- Line 127 of `app.py`: `df_display["Wealth"] = df_display["Wealth"] * conversion_rate`. -/
def displayWealth (wealth : List ℚ) (rate : ℚ) : List ℚ :=
  wealth.map (fun w => w * rate)

/-- Index of the first occurrence of the maximal element, as pandas `idxmax`
computes it on a positionally indexed frame. -/
def idxmax : List ℚ → Option ℕ
  | [] => none
  | v :: vs =>
      match idxmax vs with
      | none => some 0
      | some j => if vs.getD j 0 ≤ v then some 0 else some (j + 1)

/-- Index of the first occurrence of the minimal element, as pandas `idxmin`
computes it on a positionally indexed frame. -/
def idxmin : List ℚ → Option ℕ
  | [] => none
  | v :: vs =>
      match idxmin vs with
      | none => some 0
      | some j => if v ≤ vs.getD j 0 then some 0 else some (j + 1)

/-- Wealth of scenario `j` at period `p` in a multi-scenario result (a list of
scenario name / trajectory pairs in insertion order). -/
def scenWealthAt (scens : List (String × List ℚ)) (p j : ℕ) : ℚ :=
  (scens.map (fun sc => sc.2.getD p 0)).getD j 0

/-- Name of scenario `j` in a multi-scenario result. -/
def scenNameAt (scens : List (String × List ℚ)) (j : ℕ) : String :=
  (scens.map Prod.fst).getD j ""

/-- Best path selection of `app.py` line 144: the scenario whose wealth at
period `p` is picked by `idxmax`. -/
def bestAt (scens : List (String × List ℚ)) (p : ℕ) : Option String :=
  (idxmax (scens.map (fun sc => sc.2.getD p 0))).map (scenNameAt scens)

/-- Worst path selection of `app.py` line 145: the scenario whose wealth at
period `p` is picked by `idxmin`. -/
def worstAt (scens : List (String × List ℚ)) (p : ℕ) : Option String :=
  (idxmin (scens.map (fun sc => sc.2.getD p 0))).map (scenNameAt scens)

/-- The row index picked by `idxmax` on the period-`p` wealth column (0 when
the frame is empty, which does not occur on nonempty results). -/
def bestIdx (scens : List (String × List ℚ)) (p : ℕ) : ℕ :=
  (idxmax (scens.map (fun sc => sc.2.getD p 0))).getD 0

/-- The row index picked by `idxmin` on the period-`p` wealth column. -/
def worstIdx (scens : List (String × List ℚ)) (p : ℕ) : ℕ :=
  (idxmin (scens.map (fun sc => sc.2.getD p 0))).getD 0

/-- Scenario and currency names used in concrete instances. -/
def nameA : String := "Stay in Job"

/-- Second scenario name used in concrete instances. -/
def nameB : String := "Join Startup"

/-- Third scenario name used in concrete instances. -/
def nameC : String := "Go Freelance"

/-- A non-base display currency used in concrete instances. -/
def nameUSD : String := "USD"

/-- The base currency of `app.py`. -/
def nameAED : String := "AED"

/-- The loop appends exactly one wealth value per iteration. -/
lemma simLoop_length (g v o : ℚ) (noise : ℕ → ℚ) :
    ∀ (n t : ℕ) (inc w : ℚ), (simLoop g v o noise n t inc w).length = n
  | 0, _, _, _ => rfl
  | n + 1, t, inc, w => by
    simp [simLoop, simLoop_length g v o noise n]

/-- Running the loop from period `t` with the period-`t` income and wealth
produces exactly the wealth values of periods `t+1, …, t+n`. -/
lemma simLoop_eq_map (s i0 g v o : ℚ) (noise : ℕ → ℚ) :
    ∀ (n t : ℕ),
      simLoop g v o noise n t (incomeSeq i0 g v noise t)
          (wealthSeq s i0 g v o noise t) =
        (List.range n).map (fun k => wealthSeq s i0 g v o noise (t + k + 1))
  | 0, _ => by simp [simLoop]
  | n + 1, t => by
    have hstep := simLoop_eq_map s i0 g v o noise n (t + 1)
    have hinc : incomeSeq i0 g v noise t * (1 + (g + v * noise t)) =
        incomeSeq i0 g v noise (t + 1) := rfl
    have hw : wealthSeq s i0 g v o noise t +
        incomeSeq i0 g v noise (t + 1) - o =
        wealthSeq s i0 g v o noise (t + 1) := rfl
    rw [simLoop, hinc, hw, hstep, List.range_succ_eq_map]
    simp only [List.map_cons, List.map_map, Nat.add_zero]
    refine congrArg₂ List.cons rfl ?_
    refine congrArg₂ List.map (funext fun k => ?_) rfl
    exact congrArg (wealthSeq s i0 g v o noise) (by omega)

/-- The `app.py` wealth list is exactly the sequence of per-period wealth
values, one entry per period index `0, …, years`. -/
lemma wealthTraj_eq_map (s i0 g v o : ℚ) (years : ℕ) (noise : ℕ → ℚ) :
    wealthTraj s i0 g v o years noise =
      (List.range (years + 1)).map (wealthSeq s i0 g v o noise) := by
  have h := simLoop_eq_map s i0 g v o noise years 0
  simp only [incomeSeq, wealthSeq] at h
  rw [wealthTraj, h, List.range_succ_eq_map]
  simp only [List.map_cons, List.map_map]
  refine congrArg₂ List.cons rfl ?_
  refine congrArg₂ List.map (funext fun k => ?_) rfl
  have hk : 0 + k + 1 = Nat.succ k := by omega
  exact congrArg (wealthSeq s i0 g v o noise) hk

/-- An element of a mapped range, read with a default. -/
lemma getD_map_range {α : Type} [Inhabited α] (f : ℕ → α) (n k : ℕ)
    (hk : k < n) (d : α) : ((List.range n).map f).getD k d = f k := by
  rw [List.getD_eq_getD_get?, List.get?_map, List.get?_range hk]
  rfl

/-- Element `k ≤ years` of the wealth list is the period-`k` wealth. -/
lemma wealthTraj_getD (s i0 g v o : ℚ) (years k : ℕ) (hk : k ≤ years)
    (noise : ℕ → ℚ) :
    (wealthTraj s i0 g v o years noise).getD k 0 =
      wealthSeq s i0 g v o noise k := by
  rw [wealthTraj_eq_map]
  exact getD_map_range _ _ _ (by omega) _

/-- The salary path only reads draws with index below the step count. -/
lemma salarySeq_congr (base g v risk : ℚ) (noise1 noise2 : ℕ → ℚ) :
    ∀ n : ℕ, (∀ i, i < n → noise1 i = noise2 i) →
      salarySeq base g v risk noise1 n = salarySeq base g v risk noise2 n
  | 0, _ => rfl
  | n + 1, h => by
    rw [salarySeq, salarySeq,
      salarySeq_congr base g v risk noise1 noise2 n
        (fun i hi => h i (by omega)),
      h n (by omega)]

/-- The income sequence only reads draws with index below the period. -/
lemma incomeSeq_congr (i0 g v : ℚ) (noise1 noise2 : ℕ → ℚ) :
    ∀ t : ℕ, (∀ i, i < t → noise1 i = noise2 i) →
      incomeSeq i0 g v noise1 t = incomeSeq i0 g v noise2 t
  | 0, _ => rfl
  | t + 1, h => by
    rw [incomeSeq, incomeSeq,
      incomeSeq_congr i0 g v noise1 noise2 t (fun i hi => h i (by omega)),
      h t (by omega)]

/-- The wealth sequence only reads draws with index below the period. -/
lemma wealthSeq_congr (s i0 g v o : ℚ) (noise1 noise2 : ℕ → ℚ) :
    ∀ t : ℕ, (∀ i, i < t → noise1 i = noise2 i) →
      wealthSeq s i0 g v o noise1 t = wealthSeq s i0 g v o noise2 t
  | 0, _ => rfl
  | t + 1, h => by
    rw [wealthSeq, wealthSeq,
      wealthSeq_congr s i0 g v o noise1 noise2 t (fun i hi => h i (by omega)),
      incomeSeq_congr i0 g v noise1 noise2 (t + 1) h]

/-- `simulate_path` only reads the first `years - 1` draws of its stream. -/
lemma simulate_path_congr (base g v risk : ℚ) (years : ℕ)
    (noise1 noise2 : ℕ → ℚ) (h : ∀ i, i < years → noise1 i = noise2 i) :
    simulate_path base g v risk years noise1 =
      simulate_path base g v risk years noise2 := by
  unfold simulate_path
  refine List.map_congr_left (fun n hn => ?_)
  rw [List.mem_range] at hn
  exact salarySeq_congr base g v risk noise1 noise2 n
    (fun i hi => h i (by omega))

/-- The `app.py` wealth list only reads the first `years` draws. -/
lemma wealthTraj_congr (s i0 g v o : ℚ) (years : ℕ)
    (noise1 noise2 : ℕ → ℚ) (h : ∀ i, i < years → noise1 i = noise2 i) :
    wealthTraj s i0 g v o years noise1 =
      wealthTraj s i0 g v o years noise2 := by
  rw [wealthTraj_eq_map, wealthTraj_eq_map]
  refine List.map_congr_left (fun t ht => ?_)
  rw [List.mem_range] at ht
  exact wealthSeq_congr s i0 g v o noise1 noise2 t
    (fun i hi => h i (by omega))

/-- With zero volatility the income sequence is the deterministic compound
growth `i0 * (1 + g) ^ t`, independent of the draws. -/
lemma incomeSeq_vol_zero (i0 g : ℚ) (noise : ℕ → ℚ) :
    ∀ t : ℕ, incomeSeq i0 g 0 noise t = i0 * (1 + g) ^ t
  | 0 => by simp [incomeSeq]
  | t + 1 => by
    rw [incomeSeq, incomeSeq_vol_zero i0 g noise t]
    ring

/-- With zero volatility the wealth sequence is independent of the draws. -/
lemma wealthSeq_vol_zero_congr (s i0 g o : ℚ) (noise1 noise2 : ℕ → ℚ) :
    ∀ t : ℕ, wealthSeq s i0 g 0 o noise1 t = wealthSeq s i0 g 0 o noise2 t
  | 0 => rfl
  | t + 1 => by
    rw [wealthSeq, wealthSeq, wealthSeq_vol_zero_congr s i0 g o noise1 noise2 t,
      incomeSeq_vol_zero, incomeSeq_vol_zero]

/-- With zero volatility the whole wealth list is independent of the draws. -/
lemma wealthTraj_vol_zero_congr (s i0 g o : ℚ) (years : ℕ)
    (noise1 noise2 : ℕ → ℚ) :
    wealthTraj s i0 g 0 o years noise1 = wealthTraj s i0 g 0 o years noise2 := by
  rw [wealthTraj_eq_map, wealthTraj_eq_map]
  exact congrArg₂ List.map
    (funext fun t => wealthSeq_vol_zero_congr s i0 g o noise1 noise2 t) rfl

/-- A `risk_tolerance` of 1 makes the `simulate_path` step coincide with the
`app.py` income recurrence. -/
lemma salarySeq_risk_one (base g v : ℚ) (noise : ℕ → ℚ) :
    ∀ n : ℕ, salarySeq base g v 1 noise n = incomeSeq base g v noise n
  | 0 => rfl
  | n + 1 => by
    rw [salarySeq, incomeSeq, salarySeq_risk_one base g v noise n]
    ring

/-- A `risk_tolerance` of 0 freezes the salary path at the base salary. -/
lemma salarySeq_risk_zero (base g v : ℚ) (noise : ℕ → ℚ) :
    ∀ n : ℕ, salarySeq base g v 0 noise n = base
  | 0 => rfl
  | n + 1 => by
    rw [salarySeq, salarySeq_risk_zero base g v noise n]
    ring

/-- With a nonnegative scale every draw succeeds, so the explicit-failure loop
computes exactly the plain loop. -/
lemma projectEGo_ok (g v o : ℚ) (noise : ℕ → ℚ) (hv : 0 ≤ v) :
    ∀ (n t : ℕ) (inc w : ℚ),
      projectEGo g v o noise n t inc w =
        Except.ok (simLoop g v o noise n t inc w)
  | 0, _, _, _ => rfl
  | n + 1, t, inc, w => by
    have hrec := projectEGo_ok g v o noise hv n (t + 1)
      (inc * (1 + (g + v * noise t))) (w + inc * (1 + (g + v * noise t)) - o)
    simp only [projectEGo, normalE, if_neg (show ¬ v < 0 from by linarith),
      hrec, simLoop]

/-- Reading a displayed wealth value with default 0 is the same as multiplying
the raw value (with the same default) by the rate. -/
lemma displayWealth_getD (rate : ℚ) :
    ∀ (w : List ℚ) (i : ℕ),
      (displayWealth w rate).getD i 0 = w.getD i 0 * rate
  | [], i => by simp [displayWealth]
  | x :: w, 0 => rfl
  | x :: w, i + 1 => by
    simpa [displayWealth] using displayWealth_getD rate w i

/-- With zero volatility, positive initial income and both gross growth
factors nonnegative, a strictly larger growth rate gives strictly larger
wealth at every period from 1 on. -/
lemma wealthSeq_growth_mono (s i0 o g1 g2 : ℚ) (noise : ℕ → ℚ)
    (hpos : 0 < i0) (hg1 : -1 ≤ g1) (hlt : g1 < g2) :
    ∀ t : ℕ, wealthSeq s i0 g1 0 o noise t ≤ wealthSeq s i0 g2 0 o noise t ∧
      (1 ≤ t → wealthSeq s i0 g1 0 o noise t < wealthSeq s i0 g2 0 o noise t)
  | 0 => ⟨le_refl _, by omega⟩
  | t + 1 => by
    obtain ⟨ihle, _⟩ := wealthSeq_growth_mono s i0 o g1 g2 noise hpos hg1 hlt t
    have hfac : (1 + g1) ^ (t + 1) < (1 + g2) ^ (t + 1) :=
      pow_lt_pow_left₀ (by linarith) (by linarith) (by omega)
    have hinc : i0 * (1 + g1) ^ (t + 1) < i0 * (1 + g2) ^ (t + 1) :=
      (mul_lt_mul_left hpos).mpr hfac
    have hlt2 : wealthSeq s i0 g1 0 o noise (t + 1) <
        wealthSeq s i0 g2 0 o noise (t + 1) := by
      simp only [wealthSeq, incomeSeq_vol_zero]
      linarith
    exact ⟨le_of_lt hlt2, fun _ => hlt2⟩

/-- Specification of `idxmax`: on a nonempty list it returns the index of the
first occurrence of the maximal element. -/
lemma idxmax_spec :
    ∀ l : List ℚ, l ≠ [] →
      ∃ i, idxmax l = some i ∧ i < l.length ∧
        (∀ j, j < l.length → l.getD j 0 ≤ l.getD i 0) ∧
        (∀ j, j < i → l.getD j 0 < l.getD i 0)
  | [], h => absurd rfl h
  | v :: vs, _ => by
    rcases Nat.eq_zero_or_pos vs.length with hvs | hvs
    · rw [List.length_eq_zero] at hvs
      subst hvs
      refine ⟨0, by simp [idxmax], by simp, ?_, by omega⟩
      intro j hj
      have hj0 : j = 0 := by simpa using hj
      subst hj0
      exact le_refl _
    · have hne : vs ≠ [] := by
        intro hnil
        rw [hnil] at hvs
        simp at hvs
      obtain ⟨i, hidx, hilen, hmax, hfirst⟩ := idxmax_spec vs hne
      by_cases hle : vs.getD i 0 ≤ v
      · refine ⟨0, ?_, by simp, ?_, by omega⟩
        · rw [idxmax, hidx]
          show (if vs.getD i 0 ≤ v then some 0 else some (i + 1)) = some 0
          rw [if_pos hle]
        · intro j hj
          match j with
          | 0 => exact le_refl _
          | Nat.succ k =>
            have hk : k < vs.length := by
              simpa [Nat.succ_eq_add_one] using hj
            calc (v :: vs).getD (k + 1) 0 = vs.getD k 0 := by
                  simp [List.getD_cons_succ]
              _ ≤ vs.getD i 0 := hmax k hk
              _ ≤ v := hle
              _ = (v :: vs).getD 0 0 := rfl
      · push_neg at hle
        have hgetI : (v :: vs).getD (i + 1) 0 = vs.getD i 0 := by
          simp [List.getD_cons_succ]
        refine ⟨i + 1, ?_, by simpa using hilen, ?_, ?_⟩
        · rw [idxmax, hidx]
          show (if vs.getD i 0 ≤ v then some 0 else some (i + 1)) = some (i + 1)
          rw [if_neg (not_le.mpr hle)]
        · intro j hj
          match j with
          | 0 =>
            rw [hgetI]
            exact le_of_lt hle
          | Nat.succ k =>
            have hk : k < vs.length := by
              simpa [Nat.succ_eq_add_one] using hj
            rw [hgetI]
            calc (v :: vs).getD (k + 1) 0 = vs.getD k 0 := by
                  simp [List.getD_cons_succ]
              _ ≤ vs.getD i 0 := hmax k hk
        · intro j hj
          match j with
          | 0 =>
            rw [hgetI]
            exact hle
          | Nat.succ k =>
            have hk : k < i := by omega
            rw [hgetI]
            calc (v :: vs).getD (k + 1) 0 = vs.getD k 0 := by
                  simp [List.getD_cons_succ]
              _ < vs.getD i 0 := hfirst k hk

/-- Specification of `idxmin`: on a nonempty list it returns the index of the
first occurrence of the minimal element. -/
lemma idxmin_spec :
    ∀ l : List ℚ, l ≠ [] →
      ∃ i, idxmin l = some i ∧ i < l.length ∧
        (∀ j, j < l.length → l.getD i 0 ≤ l.getD j 0) ∧
        (∀ j, j < i → l.getD i 0 < l.getD j 0)
  | [], h => absurd rfl h
  | v :: vs, _ => by
    rcases Nat.eq_zero_or_pos vs.length with hvs | hvs
    · rw [List.length_eq_zero] at hvs
      subst hvs
      refine ⟨0, by simp [idxmin], by simp, ?_, by omega⟩
      intro j hj
      have hj0 : j = 0 := by simpa using hj
      subst hj0
      exact le_refl _
    · have hne : vs ≠ [] := by
        intro hnil
        rw [hnil] at hvs
        simp at hvs
      obtain ⟨i, hidx, hilen, hmin, hfirst⟩ := idxmin_spec vs hne
      by_cases hle : v ≤ vs.getD i 0
      · refine ⟨0, ?_, by simp, ?_, by omega⟩
        · rw [idxmin, hidx]
          show (if v ≤ vs.getD i 0 then some 0 else some (i + 1)) = some 0
          rw [if_pos hle]
        · intro j hj
          match j with
          | 0 => exact le_refl _
          | Nat.succ k =>
            have hk : k < vs.length := by
              simpa [Nat.succ_eq_add_one] using hj
            calc (v :: vs).getD 0 0 = v := rfl
              _ ≤ vs.getD i 0 := hle
              _ ≤ vs.getD k 0 := hmin k hk
              _ = (v :: vs).getD (k + 1) 0 := by simp [List.getD_cons_succ]
      · push_neg at hle
        have hgetI : (v :: vs).getD (i + 1) 0 = vs.getD i 0 := by
          simp [List.getD_cons_succ]
        refine ⟨i + 1, ?_, by simpa using hilen, ?_, ?_⟩
        · rw [idxmin, hidx]
          show (if v ≤ vs.getD i 0 then some 0 else some (i + 1)) = some (i + 1)
          rw [if_neg (not_le.mpr hle)]
        · intro j hj
          match j with
          | 0 =>
            rw [hgetI]
            exact le_of_lt hle
          | Nat.succ k =>
            have hk : k < vs.length := by
              simpa [Nat.succ_eq_add_one] using hj
            rw [hgetI]
            calc vs.getD i 0 ≤ vs.getD k 0 := hmin k hk
              _ = (v :: vs).getD (k + 1) 0 := by simp [List.getD_cons_succ]
        · intro j hj
          match j with
          | 0 =>
            rw [hgetI]
            exact hle
          | Nat.succ k =>
            have hk : k < i := by omega
            rw [hgetI]
            calc vs.getD i 0 < vs.getD k 0 := hfirst k hk
              _ = (v :: vs).getD (k + 1) 0 := by simp [List.getD_cons_succ]

/-- C1: with volatility 0 the `app.py` projection is fully deterministic (the
wealth list does not depend on the draw stream), every element is the
period-wealth of the closed-form recurrence
`wealth_(t+1) = wealth_t + income_t * (1 + g) - outflow` with
`income_(t+1) = income_t * (1 + g)`, and for `initial_wealth = 10000`,
`initial_annual_income = 180000`, `outflow = 84000`, `growth_rate = 0.05`,
`volatility = 0`, `num_periods = 1` the trajectory is `[10000, 115000]`. -/
theorem C1_zero_volatility_deterministic (s i0 g o : ℚ) (years t : ℕ)
    (noiseA noiseB : ℕ → ℚ) :
    wealthTraj s i0 g 0 o years noiseA = wealthTraj s i0 g 0 o years noiseB ∧
    wealthTraj s i0 g 0 o years noiseA =
      (List.range (years + 1)).map (wealthSeq s i0 g 0 o noiseA) ∧
    incomeSeq i0 g 0 noiseA (t + 1) = incomeSeq i0 g 0 noiseA t * (1 + g) ∧
    wealthSeq s i0 g 0 o noiseA (t + 1) =
      wealthSeq s i0 g 0 o noiseA t + incomeSeq i0 g 0 noiseA t * (1 + g) - o ∧
    wealthTraj 10000 180000 (1 / 20) 0 84000 1 noiseA = [10000, 115000] := by
  refine ⟨wealthTraj_vol_zero_congr s i0 g o years noiseA noiseB,
    wealthTraj_eq_map s i0 g 0 o years noiseA, ?_, ?_, ?_⟩
  · rw [incomeSeq]
    ring
  · rw [wealthSeq, incomeSeq]
    ring
  · rw [wealthTraj_vol_zero_congr 10000 180000 (1 / 20) 84000 1 noiseA z0]
    norm_num [wealthTraj, simLoop, z0]

/-- C2 counterexample: `simulate_path` called with `years = 10` (ten periods
to simulate) returns a list of 10 entries, not `10 + 1` as the claim states
for the projection, even on a perfectly valid input. -/
theorem C2_counterexample_simulate_path_length :
    (simulate_path 120000 (1 / 20) (1 / 50) (1 / 2) 10 z0).length ≠ 10 + 1 := by
  simp [simulate_path]

/-- C2 amended: the `app.py` wealth projection does return `num_periods + 1`
values whose element 0 is the initial wealth, for every scenario; but the
`simulate_path` copy returns only `years - 1 + 1` entries (one fewer than
`years + 1` for every `years ≥ 1`) and its element 0 is the base salary. -/
theorem C2_amended_lengths (s i0 g v o base gr vol risk : ℚ) (years : ℕ)
    (noise : ℕ → ℚ) :
    (wealthTraj s i0 g v o years noise).length = years + 1 ∧
    (wealthTraj s i0 g v o years noise).getD 0 0 = s ∧
    (simulate_path base gr vol risk years noise).length = years - 1 + 1 ∧
    (simulate_path base gr vol risk years noise).getD 0 0 = base := by
  refine ⟨?_, rfl, by simp [simulate_path], ?_⟩
  · rw [wealthTraj]
    simp [simLoop_length]
  · show ((List.range (years - 1 + 1)).map
      (salarySeq base gr vol risk noise)).getD 0 0 = base
    rw [getD_map_range _ _ _ (by omega) _, salarySeq]

/-- C3 counterexample: on the invalid input `num_periods = 0` (and even with
a negative volatility at the same time) the code does not fail at all: it
returns the one-element trajectory `[initial_wealth]` with no random draw
consumed, instead of an `InvalidInput` error. -/
theorem C3_counterexample_no_validation :
    projectE 10000 180000 (1 / 20) (-1 / 100) 84000 0 z0 =
      Except.ok [10000] := rfl

/-- C3 amended: the source performs no input validation.  With nonnegative
volatility the projection always succeeds and returns the wealth list — also
for negative income, negative wealth and arbitrary growth draws; with
`num_periods = 0` it succeeds with the single-element list `[initial_wealth]`
(no draw consumed); and with negative volatility and at least one period the
failure is a `ValueError` raised inside the first numpy draw, not a
pre-validation `InvalidInput`. -/
theorem C3_amended_behavior (s i0 g v o : ℚ) (years : ℕ) (noise : ℕ → ℚ) :
    (0 ≤ v → projectE s i0 g v o years noise =
      Except.ok (wealthTraj s i0 g v o years noise)) ∧
    projectE s i0 g v o 0 noise = Except.ok [s] ∧
    (v < 0 → 1 ≤ years →
      projectE s i0 g v o years noise = Except.error scaleErrMsg) := by
  refine ⟨fun hv => ?_, rfl, fun hv hy => ?_⟩
  · rw [projectE, projectEGo_ok g v o noise hv years 0 i0 s]
    rfl
  · match years, hy with
    | Nat.succ n, _ =>
      rw [projectE, projectEGo, normalE, if_pos hv]

/-- C3 witness: concrete instances of the amended behaviour. -/
theorem C3_amended_behavior_witness :
    projectE 10000 180000 (1 / 20) 1 84000 2 z0 =
      Except.ok (wealthTraj 10000 180000 (1 / 20) 1 84000 2 z0) ∧
    projectE 10000 180000 (1 / 20) (-1) 84000 2 z0 =
      Except.error scaleErrMsg :=
  ⟨(C3_amended_behavior 10000 180000 (1 / 20) 1 84000 2 z0).1 (by norm_num),
   (C3_amended_behavior 10000 180000 (1 / 20) (-1) 84000 2 z0).2.2
     (by norm_num) (by norm_num)⟩

/-- C4: both projection copies are pure functions of their inputs and the
injected draw stream — two runs whose streams agree on the draws actually
consumed (at most `years` of them) produce identical trajectories, which is
exactly reproducibility under a fixed seed (a fixed seed fixes the stream)
and rules out any hidden state beyond the supplied random source. -/
theorem C4_reproducibility (base g v risk s i0 o : ℚ) (years : ℕ)
    (noise1 noise2 : ℕ → ℚ)
    (hagree : ∀ i, i < years → noise1 i = noise2 i) :
    simulate_path base g v risk years noise1 =
      simulate_path base g v risk years noise2 ∧
    wealthTraj s i0 g v o years noise1 = wealthTraj s i0 g v o years noise2 :=
  ⟨simulate_path_congr base g v risk years noise1 noise2 hagree,
   wealthTraj_congr s i0 g v o years noise1 noise2 hagree⟩

/-- C4 witness: two invocations on the same concrete stream coincide. -/
theorem C4_reproducibility_witness :
    simulate_path 120000 (1 / 20) (1 / 50) (1 / 2) 10 z0 =
      simulate_path 120000 (1 / 20) (1 / 50) (1 / 2) 10 z0 ∧
    wealthTraj 10000 180000 (1 / 20) (1 / 50) 84000 10 z0 =
      wealthTraj 10000 180000 (1 / 20) (1 / 50) 84000 10 z0 :=
  C4_reproducibility 120000 (1 / 20) (1 / 50) (1 / 2) 10000 180000 84000 10
    z0 z0 (fun _ _ => rfl)

/-- C5 counterexample: a call of `simulate_path` that omits the seed still
uses the fixed default seed 42, so any two unseeded invocations with
identical inputs return the same trajectory — here evaluated on a concrete
model stream: the result is the fixed list `[100, 4300, 189200]`, refuting
the claim that unseeded draws are non-deterministic. -/
theorem C5_counterexample_default_seed :
    simulate_pathNoSeed mStream 100 0 1 1 3 =
      simulate_pathNoSeed mStream 100 0 1 1 3 ∧
    simulate_pathNoSeed mStream 100 0 1 1 3 = [100, 4300, 189200] := by
  refine ⟨rfl, ?_⟩
  have h3 : List.range (3 - 1 + 1) = [0, 1, 2] := by decide
  rw [simulate_pathNoSeed, simulate_path, h3]
  norm_num [salarySeq, mStream, defaultSeed]

/-- C5 amended: in `simulate_path` an absent seed defaults to 42, so unseeded
invocations are deterministic — any two runs whose generator algorithm
produces the same stream from seed 42 coincide; only the `app.py` copy,
which draws from the ambient global generator, can differ between two
invocations (it does differ when the consumed stream segments differ). -/
theorem C5_amended_determinism (stream1 stream2 : ℕ → ℕ → ℚ)
    (base g v risk : ℚ) (years : ℕ)
    (h : stream1 defaultSeed = stream2 defaultSeed) :
    simulate_pathNoSeed stream1 base g v risk years =
      simulate_pathNoSeed stream2 base g v risk years ∧
    ∃ nA nB : ℕ → ℚ,
      wealthTraj 10000 180000 (1 / 20) 1 84000 1 nA ≠
        wealthTraj 10000 180000 (1 / 20) 1 84000 1 nB := by
  refine ⟨?_, z0, z1, ?_⟩
  · rw [simulate_pathNoSeed, simulate_pathNoSeed, h]
  · intro heq
    have h1 : (wealthTraj 10000 180000 (1 / 20) 1 84000 1 z0).getD 1 0 =
        (wealthTraj 10000 180000 (1 / 20) 1 84000 1 z1).getD 1 0 := by
      rw [heq]
    rw [wealthTraj_getD 10000 180000 (1 / 20) 1 84000 1 1 (le_refl 1) z0,
      wealthTraj_getD 10000 180000 (1 / 20) 1 84000 1 1 (le_refl 1) z1] at h1
    norm_num [wealthSeq, incomeSeq, z0, z1] at h1

/-- C5 witness: the determinism half applied at a concrete stream. -/
theorem C5_amended_determinism_witness :
    simulate_pathNoSeed mStream 100 0 1 1 3 =
      simulate_pathNoSeed mStream 100 0 1 1 3 :=
  (C5_amended_determinism mStream mStream 100 0 1 1 3 rfl).1

/-- C6 counterexample: volatility 0, identical inputs except the growth rate
(`-3` versus `-11/5`), periods `= 2`, outflow `= 0`; the accumulated income
of both runs exceeds the (zero) outflow, yet the run with the higher growth
rate ends with strictly *lower* final wealth, because a gross growth factor
below 0 lets the lower rate overshoot through sign flips. -/
theorem C6_counterexample_guard :
    (-3 : ℚ) < -11 / 5 ∧
    0 < incomeSeq 1 (-3) 0 z0 1 + incomeSeq 1 (-3) 0 z0 2 ∧
    0 < incomeSeq 1 (-11 / 5) 0 z0 1 + incomeSeq 1 (-11 / 5) 0 z0 2 ∧
    (wealthTraj 0 1 (-11 / 5) 0 0 2 z0).getD 2 0 <
      (wealthTraj 0 1 (-3) 0 0 2 z0).getD 2 0 := by
  refine ⟨by norm_num, ?_, ?_, ?_⟩
  · norm_num [incomeSeq, z0]
  · norm_num [incomeSeq, z0]
  · rw [wealthTraj_getD 0 1 (-11 / 5) 0 0 2 2 (le_refl 2) z0,
      wealthTraj_getD 0 1 (-3) 0 0 2 2 (le_refl 2) z0]
    norm_num [wealthSeq, incomeSeq, z0]

/-- C6 amended: with volatility 0, all inputs equal except the growth rate,
a strictly positive initial income and both growth rates at least `-1`
(nonnegative gross growth factors), the higher growth rate yields strictly
higher final wealth for any horizon of at least one period; and two
scenarios with identical parameters and the same draws produce identical
trajectories (with volatility 0, any draws). -/
theorem C6_amended_monotone (s i0 o g1 g2 : ℚ) (years : ℕ)
    (noiseA noiseB : ℕ → ℚ) (hpos : 0 < i0) (hg1 : -1 ≤ g1) (hlt : g1 < g2)
    (hy : 1 ≤ years) :
    (wealthTraj s i0 g1 0 o years noiseA).getD years 0 <
      (wealthTraj s i0 g2 0 o years noiseA).getD years 0 ∧
    wealthTraj s i0 g1 0 o years noiseA =
      wealthTraj s i0 g1 0 o years noiseB := by
  refine ⟨?_, wealthTraj_vol_zero_congr s i0 g1 o years noiseA noiseB⟩
  rw [wealthTraj_getD s i0 g1 0 o years years (le_refl years) noiseA,
    wealthTraj_getD s i0 g2 0 o years years (le_refl years) noiseA]
  exact (wealthSeq_growth_mono s i0 o g1 g2 noiseA hpos hg1 hlt years).2 hy

/-- C6 witness: growth 5 percent versus 10 percent over one period. -/
theorem C6_amended_monotone_witness :
    (wealthTraj 10000 180000 (1 / 20) 0 84000 1 z0).getD 1 0 <
      (wealthTraj 10000 180000 (1 / 10) 0 84000 1 z0).getD 1 0 ∧
    wealthTraj 10000 180000 (1 / 20) 0 84000 1 z0 =
      wealthTraj 10000 180000 (1 / 20) 0 84000 1 z1 :=
  C6_amended_monotone 10000 180000 84000 (1 / 20) (1 / 10) 1 z0 z1
    (by norm_num) (by norm_num) (by norm_num) (le_refl 1)

/-- Element 0 of the `app3.py` wealth list on the default inputs: the
(monthly) salary is added to savings and the full yearly outflow subtracted,
giving `-59000` already at period 0. -/
lemma net_savings_example_getD0 :
    (net_savings 15000 (1 / 20) 5000 2000 10000 1).getD 0 0 = -59000 := by
  rw [net_savings, future_income, List.map_map,
    getD_map_range _ _ _ (by omega) _]
  norm_num

/-- C7: on every nonempty multi-scenario result and every period index, the
best/worst selection returns the name of the scenario at the picked row
index, that row's wealth at the period is maximal/minimal, and every
scenario inserted earlier is strictly worse/better — i.e. ties resolve to
the first-inserted scenario. -/
theorem C7_best_worst_selection (scens : List (String × List ℚ)) (p : ℕ)
    (h : scens ≠ []) :
    bestIdx scens p < scens.length ∧
    worstIdx scens p < scens.length ∧
    bestAt scens p = some (scenNameAt scens (bestIdx scens p)) ∧
    worstAt scens p = some (scenNameAt scens (worstIdx scens p)) ∧
    (∀ j, j < scens.length →
      scenWealthAt scens p j ≤ scenWealthAt scens p (bestIdx scens p)) ∧
    (∀ j, j < bestIdx scens p →
      scenWealthAt scens p j < scenWealthAt scens p (bestIdx scens p)) ∧
    (∀ j, j < scens.length →
      scenWealthAt scens p (worstIdx scens p) ≤ scenWealthAt scens p j) ∧
    (∀ j, j < worstIdx scens p →
      scenWealthAt scens p (worstIdx scens p) < scenWealthAt scens p j) := by
  have hlne : scens.map (fun sc => sc.2.getD p 0) ≠ [] := by
    cases scens with
    | nil => exact absurd rfl h
    | cons a l => simp
  obtain ⟨bi, hbidx, hbilen, hbmax, hbfirst⟩ :=
    idxmax_spec (scens.map (fun sc => sc.2.getD p 0)) hlne
  obtain ⟨wi, hwidx, hwilen, hwmin, hwfirst⟩ :=
    idxmin_spec (scens.map (fun sc => sc.2.getD p 0)) hlne
  have hlen : (scens.map (fun sc => sc.2.getD p 0)).length = scens.length := by
    simp
  have hbi : bestIdx scens p = bi := by
    rw [bestIdx, hbidx]
    rfl
  have hwi : worstIdx scens p = wi := by
    rw [worstIdx, hwidx]
    rfl
  rw [hbi, hwi]
  refine ⟨by omega, by omega, ?_, ?_, ?_, ?_, ?_, ?_⟩
  · show (idxmax (scens.map (fun sc => sc.2.getD p 0))).map (scenNameAt scens) =
      some (scenNameAt scens bi)
    rw [hbidx]
    rfl
  · show (idxmin (scens.map (fun sc => sc.2.getD p 0))).map (scenNameAt scens) =
      some (scenNameAt scens wi)
    rw [hwidx]
    rfl
  · intro j hj
    exact hbmax j (by omega)
  · intro j hj
    exact hbfirst j hj
  · intro j hj
    exact hwmin j (by omega)
  · intro j hj
    exact hwfirst j hj

/-- C7 witness: three scenarios with wealths `5, 7, 7` at period 1 — the
maximum 7 is tied between the second and third scenarios and the selection
resolves to the earlier-inserted one. -/
theorem C7_best_worst_selection_witness :
    bestIdx [(nameA, [1, 5]), (nameB, [2, 7]), (nameC, [3, 7])] 1 <
      ([(nameA, [1, 5]), (nameB, [2, 7]), (nameC, [3, 7])] :
        List (String × List ℚ)).length ∧
    bestAt [(nameA, [1, 5]), (nameB, [2, 7]), (nameC, [3, 7])] 1 =
      some (scenNameAt [(nameA, [1, 5]), (nameB, [2, 7]), (nameC, [3, 7])]
        (bestIdx [(nameA, [1, 5]), (nameB, [2, 7]), (nameC, [3, 7])] 1)) ∧
    worstAt [(nameA, [1, 5]), (nameB, [2, 7]), (nameC, [3, 7])] 1 =
      some (scenNameAt [(nameA, [1, 5]), (nameB, [2, 7]), (nameC, [3, 7])]
        (worstIdx [(nameA, [1, 5]), (nameB, [2, 7]), (nameC, [3, 7])] 1)) :=
  ⟨(C7_best_worst_selection [(nameA, [1, 5]), (nameB, [2, 7]), (nameC, [3, 7])]
      1 (List.cons_ne_nil _ _)).1,
   (C7_best_worst_selection [(nameA, [1, 5]), (nameB, [2, 7]), (nameC, [3, 7])]
      1 (List.cons_ne_nil _ _)).2.2.1,
   (C7_best_worst_selection [(nameA, [1, 5]), (nameB, [2, 7]), (nameC, [3, 7])]
      1 (List.cons_ne_nil _ _)).2.2.2.1⟩

/-- C8: whenever the rate lookup is unavailable — the request failed, the
status is not 200, or the currency is missing from the returned rates — the
conversion rate is exactly 1, and the conversion step is the single
multiplication of each displayed wealth value by the rate. -/
theorem C8_currency_fallback (currency base : String) (r : FetchResult)
    (w : List ℚ) (rate : ℚ) (i : ℕ)
    (hunavail : r = FetchResult.failed ∨
      (∃ st rates, r = FetchResult.response st rates ∧ st ≠ 200) ∨
      (∃ rates, r = FetchResult.response 200 rates ∧
        rates.lookup currency = none)) :
    conversion_rate currency base r = 1 ∧
    displayWealth w rate = w.map (fun x => x * rate) ∧
    (displayWealth w rate).getD i 0 = w.getD i 0 * rate ∧
    (displayWealth w rate).length = w.length := by
  refine ⟨?_, rfl, displayWealth_getD rate w i, by simp [displayWealth]⟩
  rcases hunavail with hfail | ⟨st, rates, hr, hst⟩ | ⟨rates, hr, hnone⟩
  · subst hfail
    by_cases hc : currency = base <;> simp [conversion_rate, hc]
  · subst hr
    by_cases hc : currency = base <;> simp [conversion_rate, hc, hst]
  · subst hr
    by_cases hc : currency = base <;> simp [conversion_rate, hc, hnone]

/-- C8 witness: a failed request converts the example trajectory by rate 1. -/
theorem C8_currency_fallback_witness :
    conversion_rate nameUSD nameAED FetchResult.failed = 1 ∧
    displayWealth [10000, 115000] 1 =
      ([10000, 115000] : List ℚ).map (fun x => x * 1) ∧
    (displayWealth [10000, 115000] 1).getD 0 0 =
      ([10000, 115000] : List ℚ).getD 0 0 * 1 ∧
    (displayWealth [10000, 115000] 1).length =
      ([10000, 115000] : List ℚ).length :=
  C8_currency_fallback nameUSD nameAED FetchResult.failed [10000, 115000] 1 0
    (Or.inl rfl)

/-- C9 counterexample: on identical inputs (and identical — here zero —
draws) the `app3.py` page and the `app.py` page disagree already at element
0 (`-59000` versus `10000`), and `simulate_path` disagrees with the `app.py`
trajectory as well (it returns one element where `app.py` returns two), so
the copies do not compute the same projection kernel. -/
theorem C9_counterexample_kernels_differ :
    (net_savings 15000 (1 / 20) 5000 2000 10000 1).getD 0 0 ≠
      (wealthTraj 10000 (15000 * 12) (1 / 20) 0 ((5000 + 2000) * 12) 1
        z0).getD 0 0 ∧
    simulate_path (15000 * 12) (1 / 20) 0 1 1 z0 ≠
      wealthTraj 10000 (15000 * 12) (1 / 20) 0 ((5000 + 2000) * 12) 1 z0 := by
  constructor
  · rw [net_savings_example_getD0,
      wealthTraj_getD 10000 (15000 * 12) (1 / 20) 0 ((5000 + 2000) * 12) 1 0
        (by omega) z0]
    norm_num [wealthSeq]
  · intro heq
    have hlen := congrArg List.length heq
    simp [simulate_path, wealthTraj, simLoop_length] at hlen

/-- C9 amended: the three copies share only the compounding theme, not one
kernel: `simulate_path` equals the `app.py` income recurrence exactly when
`risk_tolerance = 1` (and then still returns `years - 1 + 1` income values,
not a wealth trajectory), `app3.py` computes the non-cumulative snapshot
`savings + salary*(1+g)^i - outflow`, and on identical inputs and draws the
`app3.py` and `app.py` wealth lists differ. -/
theorem C9_amended_relation (base g v salary fe emi sav : ℚ) (years : ℕ)
    (noise : ℕ → ℚ) :
    simulate_path base g v 1 years noise =
      (List.range (years - 1 + 1)).map (incomeSeq base g v noise) ∧
    net_savings salary g fe emi sav years =
      (List.range (years + 1)).map
        (fun i => sav + (salary * (1 + g) ^ i - fe * 12 - emi * 12)) ∧
    net_savings 15000 (1 / 20) 5000 2000 10000 1 ≠
      wealthTraj 10000 (15000 * 12) (1 / 20) 0 ((5000 + 2000) * 12) 1 z0 := by
  refine ⟨?_, ?_, ?_⟩
  · rw [simulate_path]
    exact congrArg₂ List.map (funext (salarySeq_risk_one base g v noise)) rfl
  · rw [net_savings, future_income, List.map_map]
    rfl
  · intro heq
    have h0 : (net_savings 15000 (1 / 20) 5000 2000 10000 1).getD 0 0 =
        (wealthTraj 10000 (15000 * 12) (1 / 20) 0 ((5000 + 2000) * 12) 1
          z0).getD 0 0 := by
      rw [heq]
    rw [net_savings_example_getD0,
      wealthTraj_getD 10000 (15000 * 12) (1 / 20) 0 ((5000 + 2000) * 12) 1 0
        (by omega) z0] at h0
    norm_num [wealthSeq] at h0

/-- C10: `simulate_path` multiplies the per-period growth change by
`risk_tolerance` before applying it: with `risk_tolerance = 0` every element
of the returned path equals the base salary, with `risk_tolerance = 1` the
path is exactly the income recurrence `income_(n+1) = income_n * (1 + g_n)`,
and for any `risk_tolerance ≠ 1` there is a concrete input on which the path
differs from that recurrence. -/
theorem C10_risk_tolerance_scaling (base g v risk : ℚ) (years n : ℕ)
    (noise : ℕ → ℚ) (hr : risk ≠ 1) :
    salarySeq base g v 0 noise n = base ∧
    (∀ x ∈ simulate_path base g v 0 years noise, x = base) ∧
    simulate_path base g v 1 years noise =
      (List.range (years - 1 + 1)).map (incomeSeq base g v noise) ∧
    simulate_path 1 1 0 risk 2 z0 ≠ [1, 2] := by
  refine ⟨salarySeq_risk_zero base g v noise n, ?_, ?_, ?_⟩
  · intro x hx
    rw [simulate_path] at hx
    obtain ⟨m, hm, hx⟩ := List.mem_map.mp hx
    rw [← hx]
    exact salarySeq_risk_zero base g v noise m
  · rw [simulate_path]
    exact congrArg₂ List.map (funext (salarySeq_risk_one base g v noise)) rfl
  · intro heq
    have h1 : (simulate_path 1 1 0 risk 2 z0).getD 1 0 =
        ([1, 2] : List ℚ).getD 1 0 := by
      rw [heq]
    rw [simulate_path, getD_map_range _ _ _ (by omega) _] at h1
    have h2 : salarySeq 1 1 0 risk z0 1 =
        salarySeq 1 1 0 risk z0 0 * (1 + (1 + 0 * z0 0) * risk) := rfl
    rw [h2, salarySeq] at h1
    norm_num [z0] at h1
    exact hr (by linarith)

/-- C10 witness: the zero-risk freeze and the failure of the recurrence at
`risk_tolerance = 2`. -/
theorem C10_risk_tolerance_scaling_witness :
    salarySeq 5 (1 / 20) (1 / 10) 0 z0 3 = 5 ∧
    simulate_path 1 1 0 2 2 z0 ≠ [1, 2] :=
  ⟨(C10_risk_tolerance_scaling 5 (1 / 20) (1 / 10) 2 4 3 z0 (by norm_num)).1,
   (C10_risk_tolerance_scaling 5 (1 / 20) (1 / 10) 2 4 3 z0
     (by norm_num)).2.2.2⟩
